import Mathlib

/-!
Verification of the unified-diff position mapper and resilient inline-comment
poster of `src/reviewer/github.py` (class `GitHubClient`).

Strings are modelled as `List Char` so that every operation of the source
(`str.startswith`, `str.split`, slicing, the `\+(\d+)` regex search, substring
tests) is an executable structural recursion.  The three methods under study —
`parse_diff_for_review_lines`, `post_inline_comment`, and
`post_review_with_inline_comments` — are translated line by line; external
effects (the `gh` subprocess calls and `time.sleep`) are abstracted as an
environment of call results, and each function additionally returns a trace
(attempt counts, sleep durations, fallback bodies posted) so that theorems can
speak about the calls the code makes.
-/

namespace Reviewer

abbrev Str := List Char

/-- `s.startswith(p)` on our `List Char` strings. -/
def lstartsWith (s p : Str) : Bool :=
  List.isPrefixOf p s

/-- Python `sub in s` substring test. -/
def containsSub (sub : Str) : Str → Bool
  | [] => sub.isEmpty
  | c :: rest => List.isPrefixOf sub (c :: rest) || containsSub sub rest

/-- Python `s.strip()`: drop whitespace from both ends. -/
def strip (s : Str) : Str :=
  ((s.dropWhile Char.isWhitespace).reverse.dropWhile Char.isWhitespace).reverse

/-- Python `s.split()` with no separator: split on whitespace runs, drop empties. -/
def pySplit (s : Str) : List Str :=
  (List.splitOnP (fun c => c.isWhitespace) s).filter (fun l => !l.isEmpty)

/-- Decimal rendering of a line number, as Python `str(int)` / f-string interpolation. -/
def natToStr (n : Nat) : Str :=
  Nat.toDigits 10 n

/-- Value of a digit string, as Python `int(...)` on the regex capture. -/
def digitsToNat (acc : Nat) : List Char → Nat
  | [] => acc
  | c :: rest => digitsToNat (acc * 10 + (c.toNat - '0'.toNat)) rest

/-- `re.search(r"\+(\d+)", line)`: first `+` immediately followed by at least one
digit; returns the value of the maximal digit run after that `+`. -/
def findPlusNum : List Char → Option Nat
  | [] => none
  | c :: rest =>
    if c = '+' then
      if (rest.takeWhile Char.isDigit).isEmpty then findPlusNum rest
      else some (digitsToNat 0 (rest.takeWhile Char.isDigit))
    else findPlusNum rest

def diffGitMarker : Str := "diff --git".toList

def hunkMarker : Str := "@@".toList

def noNewlineMarker : Str := "\\".toList

def plusMarker : Str := "+".toList

def plusFileMarker : Str := "+++".toList

def minusMarker : Str := "-".toList

def minusFileMarker : Str := "---".toList

/-- One element of the list returned by `parse_diff_for_review_lines`: the dict
with keys `path`, `line`, `position`, `content`, `context`. -/
structure DiffEntry where
  path : Str
  line : Nat
  position : Nat
  content : Str
  context : Str
deriving DecidableEq

/-- The `context_after` lookahead of `parse_diff_for_review_lines`: up to 3
following lines, stopping at a hunk or file boundary, skipping `---`/`+++`. -/
def contextAfter (rest : List Str) : List Str :=
  ((rest.take 3).takeWhile
      (fun l => !(lstartsWith l hunkMarker || lstartsWith l diffGitMarker))).filter
    (fun l => !(lstartsWith l minusFileMarker || lstartsWith l plusFileMarker))

/-- Python `context_buffer[-3:]`. -/
def last3 (ls : List Str) : List Str :=
  ls.drop (ls.length - 3)

/-- `"\n".join(...)`. -/
def strJoin (ls : List Str) : Str :=
  List.intercalate ['\n'] ls

/-- The body of the `for i, line in enumerate(lines)` loop of
`parse_diff_for_review_lines`, one state component per Python local:
`cf` = `current_file`, `cl` = `current_line`, `dp` = `diff_position`,
`buf` = `context_buffer`, `acc` = `results`. -/
def go (cf : Option Str) (cl dp : Nat) (buf : List Str) (acc : List DiffEntry) :
    List Str → List DiffEntry
  | [] => acc
  | line :: rest =>
    if lstartsWith line diffGitMarker then
      go (if 4 ≤ (pySplit line).length then some (((pySplit line).getD 3 []).drop 2) else cf)
        cl 0 [] acc rest
    else if lstartsWith line hunkMarker then
      go cf (match findPlusNum line with | some n => n | none => cl) (dp + 1) [] acc rest
    else
      match cf with
      | none => go none cl dp buf acc rest
      | some f =>
        if lstartsWith line plusMarker && !lstartsWith line plusFileMarker then
          go (some f) (cl + 1) (dp + 1) buf
            (acc ++ [⟨f, cl, dp + 1, line.drop 1,
              strJoin (last3 buf ++ [line] ++ contextAfter rest)⟩]) rest
        else if lstartsWith line minusMarker && !lstartsWith line minusFileMarker then
          go (some f) cl (dp + 1) (buf ++ [line]) acc rest
        else if !lstartsWith line noNewlineMarker then
          if !lstartsWith line plusFileMarker && !lstartsWith line minusFileMarker then
            go (some f) (cl + 1) (dp + 1) (buf ++ [line]) acc rest
          else
            go (some f) cl (dp + 1) buf acc rest
        else
          go (some f) cl dp buf acc rest

/-- `GitHubClient.parse_diff_for_review_lines`. -/
def parse_diff_for_review_lines (diff : Str) : List DiffEntry :=
  go none 0 0 [] [] (List.splitOn '\n' diff)

/-- A diff whose file segment carries the standard `index`, `---`, `+++` header
lines between the `diff --git` marker and the first hunk header. -/
def headerPreambleDiff : Str :=
  ("diff --git a/f b/f\nindex 1111111..2222222 100644\n--- a/f\n+++ b/f\n"
    ++ "@@ -1,1 +1,2 @@\n ctx\n+foo").toList

/-- C1: the claim says segment lines outside any hunk never increment
`diff_position`, making the first hunk header sit at position 1 and the first
in-hunk line at position 2, so the added line of `headerPreambleDiff` (second
line inside its only hunk) would have to get position 3.  The code, however,
increments `diff_position` for the `index`, `---` and `+++` lines as well, and
assigns that added line position 6. -/
theorem c1_preamble_lines_counted :
    (parse_diff_for_review_lines headerPreambleDiff).map (fun e => e.position) = [6]
      ∧ (6 : Nat) ≠ 3 := by
  constructor
  · decide
  · decide

/-- A diff line that is neither a file marker, hunk header, added, removed,
no-newline, nor `+++`/`---` line: the parser treats it as an unchanged context
line. -/
def plainLine (l : Str) : Prop :=
  lstartsWith l diffGitMarker = false ∧ lstartsWith l hunkMarker = false ∧
  lstartsWith l plusMarker = false ∧ lstartsWith l minusMarker = false ∧
  lstartsWith l noNewlineMarker = false ∧ lstartsWith l plusFileMarker = false ∧
  lstartsWith l minusFileMarker = false

instance (l : Str) : Decidable (plainLine l) := by
  unfold plainLine
  infer_instance

/-- C2: whatever the parser state, a `diff --git` marker for path `p` followed
by the hunk header `@@ -1,3 +1,4 @@`, one context line, the added line `+foo`
and one more context line yields exactly one new entry, for the added line,
with `line` (new line number) 2 and `position` (diff position) 3:
header = 1, context = 2, added = 3. -/
theorem c2_single_hunk_positions
    (cf : Option Str) (cl dp : Nat) (buf : List Str) (acc : List DiffEntry)
    (g p c1 c2 : Str) (rest : List Str)
    (hg : lstartsWith g diffGitMarker = true)
    (hg4 : 4 ≤ (pySplit g).length)
    (hgp : ((pySplit g).getD 3 []).drop 2 = p)
    (hc1 : plainLine c1) (hc2 : plainLine c2) :
    go cf cl dp buf acc
        (g :: "@@ -1,3 +1,4 @@".toList :: c1 :: "+foo".toList :: c2 :: rest)
      = go (some p) 4 4 [c1, c2]
          (acc ++ [⟨p, 2, 3, "foo".toList,
            strJoin ([c1, "+foo".toList] ++ contextAfter (c2 :: rest))⟩]) rest := by
  obtain ⟨h1, h2, h3, h4, h5, h6, h7⟩ := hc1
  obtain ⟨k1, k2, k3, k4, k5, k6, k7⟩ := hc2
  have e3 : findPlusNum ("@@ -1,3 +1,4 @@".toList) = some 1 := by decide
  simp at e3
  simp at hgp
  simp +decide [go, hg, hg4, hgp, e3, h1, h2, h3, h4, h5, h6, h7, k1, k2, k3, k4, k5, k6, k7,
    last3, strJoin]

/-- C2 witness: the theorem applied to a two-context-line hunk of file `f`. -/
theorem c2_single_hunk_positions_witness :
    go none 0 0 [] []
        ("diff --git a/f b/f".toList :: "@@ -1,3 +1,4 @@".toList :: " a".toList
          :: "+foo".toList :: " b".toList :: [])
      = go (some "f".toList) 4 4 [" a".toList, " b".toList]
          ([] ++ [⟨"f".toList, 2, 3, "foo".toList,
            strJoin ([" a".toList, "+foo".toList] ++ contextAfter (" b".toList :: []))⟩]) [] :=
  c2_single_hunk_positions none 0 0 [] [] ("diff --git a/f b/f".toList) ("f".toList)
    (" a".toList) (" b".toList) [] (by decide) (by decide) (by decide) (by decide) (by decide)

/-- C3: inside a file segment, a hunk header declaring new-side start `s`
followed by a removed line and then an added line yields exactly one new entry,
for the added line, whose new line number is `s` itself (the removed line does
not advance the new-side counter) while the added line advances it to `s + 1`. -/
theorem c3_removed_line_keeps_new_line
    (f : Str) (cl dp : Nat) (buf : List Str) (acc : List DiffEntry)
    (h r a : Str) (s : Nat) (rest : List Str)
    (hh1 : lstartsWith h diffGitMarker = false)
    (hh2 : lstartsWith h hunkMarker = true)
    (hhs : findPlusNum h = some s)
    (hr1 : lstartsWith r diffGitMarker = false)
    (hr2 : lstartsWith r hunkMarker = false)
    (hr3 : lstartsWith r plusMarker = false)
    (hr4 : lstartsWith r minusMarker = true)
    (hr5 : lstartsWith r minusFileMarker = false)
    (ha1 : lstartsWith a diffGitMarker = false)
    (ha2 : lstartsWith a hunkMarker = false)
    (ha3 : lstartsWith a plusMarker = true)
    (ha4 : lstartsWith a plusFileMarker = false) :
    go (some f) cl dp buf acc (h :: r :: a :: rest)
      = go (some f) (s + 1) (dp + 3)
          (([] : List Str) ++ [r])
          (acc ++ [⟨f, s, dp + 3, a.drop 1, strJoin ([r, a] ++ contextAfter rest)⟩]) rest := by
  simp +decide [go, hh1, hh2, hhs, hr1, hr2, hr3, hr4, hr5, ha1, ha2, ha3, ha4, last3, strJoin]

/-- C3 witness: the theorem applied to the hunk `@@ -4,2 +7,2 @@` with body
`-old`, `+new`: the entry for `+new` has new line number 7, not 8. -/
theorem c3_removed_line_keeps_new_line_witness :
    go (some "f".toList) 0 0 [] []
        ("@@ -4,2 +7,2 @@".toList :: "-old".toList :: "+new".toList :: [])
      = go (some "f".toList) (7 + 1) (0 + 3)
          (([] : List Str) ++ ["-old".toList])
          ([] ++ [⟨"f".toList, 7, 0 + 3, "+new".toList.drop 1,
            strJoin (["-old".toList, "+new".toList] ++ contextAfter [])⟩]) [] :=
  c3_removed_line_keeps_new_line ("f".toList) 0 0 [] [] ("@@ -4,2 +7,2 @@".toList)
    ("-old".toList) ("+new".toList) 7 [] (by decide) (by decide) (by decide) (by decide)
    (by decide) (by decide) (by decide) (by decide) (by decide) (by decide) (by decide)
    (by decide)

/-- Result of one `subprocess.run` call: exit code and stderr text. -/
structure ApiResult where
  returncode : Int
  stderr : Str
deriving DecidableEq

/-- The environment of one `post_inline_comment` call: the PR diff fetched when
no position is supplied, the result of the `gh api` inline post for each
attempt index, and the result of the `gh pr comment` fallback post. -/
structure PostEnv where
  diff : Str
  attemptRes : Nat → ApiResult
  fallbackRes : ApiResult

/-- `"422" in error_msg or "Validation Failed" in error_msg`. -/
def isValidationError (e : Str) : Bool :=
  containsSub "422".toList e || containsSub "Validation Failed".toList e

/-- State left by the `for attempt in range(max_retries)` loop. -/
structure LoopOut where
  success : Bool
  attemptsMade : Nat
  sleeps : List Nat
  lastErr : Str
deriving DecidableEq

/-- The retry loop of `post_inline_comment`, written with explicit fuel; the
loop is entered with `attempt = 0` and `fuel = maxR`, so `fuel = maxR - attempt`
throughout.  `attemptsMade` is the 1-based index of the last attempt performed,
`sleeps` the backoff durations slept, `lastErr` the stripped stderr of the last
attempt. -/
def loopGo (res : Nat → ApiResult) (maxR : Nat) : (attempt : Nat) → (fuel : Nat) → LoopOut
  | attempt, 0 => ⟨false, attempt, [], []⟩
  | attempt, fuel + 1 =>
    if (res attempt).returncode == 0 then
      ⟨true, attempt + 1, [], strip (res attempt).stderr⟩
    else if isValidationError (strip (res attempt).stderr) then
      ⟨false, attempt + 1, [], strip (res attempt).stderr⟩
    else if attempt < maxR - 1 then
      ⟨(loopGo res maxR (attempt + 1) fuel).success,
       (loopGo res maxR (attempt + 1) fuel).attemptsMade,
       2 ^ attempt :: (loopGo res maxR (attempt + 1) fuel).sleeps,
       (loopGo res maxR (attempt + 1) fuel).lastErr⟩
    else
      ⟨false, attempt + 1, [], strip (res attempt).stderr⟩

/-- The dict returned by `post_inline_comment`, or the `RuntimeError` it
raises when the fallback `gh pr comment` call itself fails. -/
inductive PostResult where
  | inline (pr : Nat) (path : Str) (line : Nat) (position : Nat) (attempts : Nat)
  | fallback (pr : Nat) (path : Str) (line : Nat) (error : Str) (attempts : Option Nat)
  | raised (msg : Str)
deriving DecidableEq

/-- Returned value of `post_inline_comment` plus a trace of its external
calls: number of positional `gh api` posts, sleep durations, and the bodies of
the plain-comment fallback posts it made. -/
structure PostOutcome where
  result : PostResult
  positionalAttempts : Nat
  sleeps : List Nat
  fallbackPosts : List Str
deriving DecidableEq

/-- `f"gh pr comment failed: {result.stderr.strip()}"`. -/
def ghFailMsg (r : ApiResult) : Str :=
  "gh pr comment failed: ".toList ++ strip r.stderr

/-- `f"**{path}:{line}**\n\n{body}"`, the not-in-diff fallback body. -/
def notFoundBody (path : Str) (line : Nat) (body : Str) : Str :=
  "**".toList ++ path ++ ":".toList ++ natToStr line ++ "**\n\n".toList ++ body

/-- The fallback body used after failed positional attempts, carrying the last
error text. -/
def fallbackBody (path : Str) (line : Nat) (body err : Str) : Str :=
  "**".toList ++ path ++ ":".toList ++ natToStr line ++ "**\n\n".toList ++ body
    ++ "\n\n---\n*Note: Could not post as inline comment. Error: ".toList ++ err ++ "*".toList

/-- The positional-post phase of `post_inline_comment`: the retry loop, then on
failure the degraded plain-comment post. -/
def runPositional (env : PostEnv) (pr : Nat) (path : Str) (line : Nat) (body : Str)
    (position : Nat) (maxR : Nat) : PostOutcome :=
  if (loopGo env.attemptRes maxR 0 maxR).success then
    ⟨.inline pr path line position (loopGo env.attemptRes maxR 0 maxR).attemptsMade,
     (loopGo env.attemptRes maxR 0 maxR).attemptsMade,
     (loopGo env.attemptRes maxR 0 maxR).sleeps, []⟩
  else if env.fallbackRes.returncode == 0 then
    ⟨.fallback pr path line (loopGo env.attemptRes maxR 0 maxR).lastErr (some maxR),
     (loopGo env.attemptRes maxR 0 maxR).attemptsMade,
     (loopGo env.attemptRes maxR 0 maxR).sleeps,
     [fallbackBody path line body (loopGo env.attemptRes maxR 0 maxR).lastErr]⟩
  else
    ⟨.raised (ghFailMsg env.fallbackRes),
     (loopGo env.attemptRes maxR 0 maxR).attemptsMade,
     (loopGo env.attemptRes maxR 0 maxR).sleeps,
     [fallbackBody path line body (loopGo env.attemptRes maxR 0 maxR).lastErr]⟩

/-- `GitHubClient.post_inline_comment`.  When `position` is `none` the diff is
parsed and the first entry matching `(path, line)` supplies the position; with
no match the call degrades directly to the plain-comment fallback with error
`"Line not in diff"`. -/
def post_inline_comment (env : PostEnv) (pr : Nat) (path : Str) (line : Nat) (body : Str)
    (position : Option Nat) (maxR : Nat) : PostOutcome :=
  match position with
  | some p => runPositional env pr path line body p maxR
  | none =>
    match (parse_diff_for_review_lines env.diff).filter
        (fun rl => rl.path == path && rl.line == line) with
    | rl :: _ => runPositional env pr path line body rl.position maxR
    | [] =>
      if env.fallbackRes.returncode == 0 then
        ⟨.fallback pr path line ("Line not in diff".toList) none, 0, [],
         [notFoundBody path line body]⟩
      else
        ⟨.raised (ghFailMsg env.fallbackRes), 0, [], [notFoundBody path line body]⟩

/-- If every attempt from `attempt` up to `maxR - 1` fails with a transient
(non-validation) error, the loop performs them all, sleeping `2 ^ k` after each
failed attempt except the last, and ends on the last attempt's error. -/
theorem loopGo_all_transient (res : Nat → ApiResult) (maxR : Nat) :
    ∀ (d attempt : Nat), maxR = attempt + d + 1 →
    (∀ k, attempt ≤ k → k < maxR →
      ((res k).returncode == 0) = false ∧ isValidationError (strip (res k).stderr) = false) →
    loopGo res maxR attempt (d + 1)
      = ⟨false, maxR, (List.range' attempt d).map (fun k => 2 ^ k),
          strip (res (maxR - 1)).stderr⟩ := by
  intro d
  induction d with
  | zero =>
    intro attempt hmax hall
    obtain ⟨hrc, hval⟩ := hall attempt (Nat.le_refl _) (by omega)
    subst hmax
    simp [loopGo, hrc, hval]
  | succ d ih =>
    intro attempt hmax hall
    obtain ⟨hrc, hval⟩ := hall attempt (Nat.le_refl _) (by omega)
    have hlt : attempt < maxR - 1 := by omega
    have ihh := ih (attempt + 1) (by omega) (fun k hk1 hk2 => hall k (by omega) hk2)
    rw [loopGo, ihh]
    simp [hrc, hval, hlt, List.range'_succ]

/-- Entered at attempt 0 with full fuel, an all-transient-failures run makes
exactly `n` attempts with backoff sleeps `2 ^ 0 .. 2 ^ (n - 2)`. -/
theorem loopGo_exhausts (res : Nat → ApiResult) (n : Nat) (hn : 1 ≤ n)
    (hall : ∀ k, k < n →
      ((res k).returncode == 0) = false ∧ isValidationError (strip (res k).stderr) = false) :
    loopGo res n 0 n
      = ⟨false, n, (List.range (n - 1)).map (fun k => 2 ^ k), strip (res (n - 1)).stderr⟩ := by
  obtain ⟨d, rfl⟩ : ∃ d, n = d + 1 := ⟨n - 1, by omega⟩
  have h := loopGo_all_transient res (d + 1) d 0 (by omega) (fun k _ hk2 => hall k hk2)
  simpa [List.range_eq_range'] using h

/-- If attempts `attempt .. attempt + j - 1` fail transiently and attempt
`attempt + j` fails with a validation-class error, the loop stops right there:
`attempt + j + 1` attempts total, no sleep after the validation failure. -/
theorem loopGo_validation_aux (res : Nat → ApiResult) (maxR : Nat) :
    ∀ (j attempt fuel : Nat), fuel = maxR - attempt → attempt + j < maxR →
    (∀ k, attempt ≤ k → k < attempt + j →
      ((res k).returncode == 0) = false ∧ isValidationError (strip (res k).stderr) = false) →
    ((res (attempt + j)).returncode == 0) = false →
    isValidationError (strip (res (attempt + j)).stderr) = true →
    loopGo res maxR attempt fuel
      = ⟨false, attempt + j + 1, (List.range' attempt j).map (fun k => 2 ^ k),
          strip (res (attempt + j)).stderr⟩ := by
  intro j
  induction j with
  | zero =>
    intro attempt fuel hfuel hlt htrans hrc hval
    obtain ⟨f, rfl⟩ : ∃ f, fuel = f + 1 := ⟨fuel - 1, by omega⟩
    simp at hrc hval
    simp [loopGo, hrc, hval]
  | succ j ih =>
    intro attempt fuel hfuel hlt htrans hrc hval
    obtain ⟨f, rfl⟩ : ∃ f, fuel = f + 1 := ⟨fuel - 1, by omega⟩
    obtain ⟨arc, aval⟩ := htrans attempt (Nat.le_refl _) (by omega)
    have hl1 : attempt < maxR - 1 := by omega
    have hx : attempt + 1 + j = attempt + (j + 1) := by omega
    have ihh := ih (attempt + 1) f (by omega) (by omega)
      (fun k hk1 hk2 => htrans k (by omega) (by omega))
      (by rw [hx]; exact hrc) (by rw [hx]; exact hval)
    rw [loopGo, ihh, hx]
    simp [arc, aval, hl1, List.range'_succ]

/-- Validation-failure run from a fresh loop: attempts `0 .. k - 1` transient,
attempt `k` a validation failure, gives exactly `k + 1` attempts. -/
theorem loopGo_validation (res : Nat → ApiResult) (n k : Nat) (hk : k < n)
    (htrans : ∀ j, j < k →
      ((res j).returncode == 0) = false ∧ isValidationError (strip (res j).stderr) = false)
    (hrc : ((res k).returncode == 0) = false)
    (hval : isValidationError (strip (res k).stderr) = true) :
    loopGo res n 0 n
      = ⟨false, k + 1, (List.range k).map (fun j => 2 ^ j), strip (res k).stderr⟩ := by
  have h := loopGo_validation_aux res n k 0 n (by omega) (by omega)
    (fun j _ hj2 => htrans j (by omega)) (by simpa using hrc) (by simpa using hval)
  simpa [List.range_eq_range'] using h

/-- C4: with a known position and every positional attempt failing with a
transient (non-validation) error, `post_inline_comment` makes exactly `n`
(`max_retries`) positional attempts, sleeping `2 ^ k` seconds after the
`(k+1)`-th failed attempt for `k = 0 .. n - 2` and not sleeping after the last,
and then posts exactly one plain-comment fallback. -/
theorem c4_retry_ceiling (env : PostEnv) (pr : Nat) (path : Str) (line : Nat) (body : Str)
    (p n : Nat) (hn : 1 ≤ n)
    (hall : ∀ k, k < n → ((env.attemptRes k).returncode == 0) = false ∧
      isValidationError (strip (env.attemptRes k).stderr) = false) :
    (post_inline_comment env pr path line body (some p) n).positionalAttempts = n ∧
    (post_inline_comment env pr path line body (some p) n).sleeps
      = (List.range (n - 1)).map (fun k => 2 ^ k) ∧
    (post_inline_comment env pr path line body (some p) n).fallbackPosts.length = 1 := by
  have hl := loopGo_exhausts env.attemptRes n hn hall
  by_cases hfb : (env.fallbackRes.returncode == 0) = true
  · simp [post_inline_comment, runPositional, hl, hfb]
  · rw [Bool.not_eq_true] at hfb
    simp [post_inline_comment, runPositional, hl, hfb]

/-- C4 witness: three attempts all failing with the transient error `boom`
yield 3 positional attempts, sleeps of 1 then 2 seconds, and one fallback. -/
theorem c4_retry_ceiling_witness :
    (post_inline_comment ⟨[], fun _ => ⟨1, "boom".toList⟩, ⟨0, []⟩⟩ 1 ("f.py".toList) 2
        ("hi".toList) (some 7) 3).positionalAttempts = 3 ∧
    (post_inline_comment ⟨[], fun _ => ⟨1, "boom".toList⟩, ⟨0, []⟩⟩ 1 ("f.py".toList) 2
        ("hi".toList) (some 7) 3).sleeps = (List.range (3 - 1)).map (fun k => 2 ^ k) ∧
    (post_inline_comment ⟨[], fun _ => ⟨1, "boom".toList⟩, ⟨0, []⟩⟩ 1 ("f.py".toList) 2
        ("hi".toList) (some 7) 3).fallbackPosts.length = 1 :=
  c4_retry_ceiling ⟨[], fun _ => ⟨1, "boom".toList⟩, ⟨0, []⟩⟩ 1 ("f.py".toList) 2
    ("hi".toList) 7 3 (by omega) (fun k _ => ⟨rfl, rfl⟩)

/-- C5: with a known position, transient failures on attempts `0 .. k - 1` and
a validation-class error (text containing `422` or `Validation Failed`) on
attempt `k`, no further positional attempt is made: the call degrades right
away to a single plain-comment fallback whose body and returned record carry
the validation error text.  With `k = 0` this is one attempt out of `n`. -/
theorem c5_validation_short_circuit (env : PostEnv) (pr : Nat) (path : Str) (line : Nat)
    (body : Str) (p n k : Nat) (hk : k < n)
    (htrans : ∀ j, j < k → ((env.attemptRes j).returncode == 0) = false ∧
      isValidationError (strip (env.attemptRes j).stderr) = false)
    (hrc : ((env.attemptRes k).returncode == 0) = false)
    (hval : isValidationError (strip (env.attemptRes k).stderr) = true)
    (hfb : (env.fallbackRes.returncode == 0) = true) :
    post_inline_comment env pr path line body (some p) n
      = ⟨.fallback pr path line (strip (env.attemptRes k).stderr) (some n), k + 1,
          (List.range k).map (fun j => 2 ^ j),
          [fallbackBody path line body (strip (env.attemptRes k).stderr)]⟩ := by
  have hl := loopGo_validation env.attemptRes n k hk htrans hrc hval
  simp [post_inline_comment, runPositional, hl, hfb]

/-- C5 witness: a validation failure on the first of 5 allowed attempts gives
exactly one positional attempt, no sleeps, and the fallback record. -/
theorem c5_validation_short_circuit_witness :
    post_inline_comment ⟨[], fun _ => ⟨1, "HTTP 422: Validation Failed".toList⟩, ⟨0, []⟩⟩
        1 ("f.py".toList) 2 ("hi".toList) (some 7) 5
      = ⟨.fallback 1 ("f.py".toList) 2
            (strip ((fun _ => (⟨1, "HTTP 422: Validation Failed".toList⟩ : ApiResult)) 0).stderr)
            (some 5), 0 + 1,
          (List.range 0).map (fun j => 2 ^ j),
          [fallbackBody ("f.py".toList) 2 ("hi".toList)
            (strip ((fun _ => (⟨1, "HTTP 422: Validation Failed".toList⟩ : ApiResult)) 0).stderr)]⟩ :=
  c5_validation_short_circuit ⟨[], fun _ => ⟨1, "HTTP 422: Validation Failed".toList⟩, ⟨0, []⟩⟩
    1 ("f.py".toList) 2 ("hi".toList) 7 5 0 (by omega) (fun j hj => absurd hj (Nat.not_lt_zero j))
    (by decide) (by decide) (by decide)

/-- C6: with no position supplied and `(path, line)` matching no entry of the
parsed diff, `post_inline_comment` makes zero positional attempts and exactly
one plain-comment fallback post whose body is prefixed with the
`**path:line**` reference, returning a fallback record with error detail
`Line not in diff`. -/
theorem c6_not_in_diff_fallback (env : PostEnv) (pr : Nat) (path : Str) (line : Nat)
    (body : Str) (n : Nat)
    (hmatch : (parse_diff_for_review_lines env.diff).filter
        (fun rl => rl.path == path && rl.line == line) = [])
    (hfb : (env.fallbackRes.returncode == 0) = true) :
    post_inline_comment env pr path line body none n
      = ⟨.fallback pr path line ("Line not in diff".toList) none, 0, [],
          [notFoundBody path line body]⟩ := by
  simp [post_inline_comment, hmatch, hfb]

/-- C6 witness: an empty diff matches nothing, so the call falls back at once. -/
theorem c6_not_in_diff_fallback_witness :
    post_inline_comment ⟨[], fun _ => ⟨1, []⟩, ⟨0, []⟩⟩ 1 ("f.py".toList) 2 ("hi".toList) none 5
      = ⟨.fallback 1 ("f.py".toList) 2 ("Line not in diff".toList) none, 0, [],
          [notFoundBody ("f.py".toList) 2 ("hi".toList)]⟩ :=
  c6_not_in_diff_fallback ⟨[], fun _ => ⟨1, []⟩, ⟨0, []⟩⟩ 1 ("f.py".toList) 2 ("hi".toList) 5
    (by decide) (by decide)

/-- C10: whenever a positional `post_inline_comment` call returns a fallback
record (retries exhausted or validation error), the record's `attempts` field
is the configured `max_retries`, independent of how many positional attempts
were actually made. -/
theorem c10_attempts_field_is_max_retries (env : PostEnv) (pr : Nat) (path : Str) (line : Nat)
    (body : Str) (p n : Nat) (pr2 : Nat) (path2 : Str) (line2 : Nat) (e : Str) (a : Nat)
    (hn : 1 ≤ n)
    (hres : (post_inline_comment env pr path line body (some p) n).result
      = .fallback pr2 path2 line2 e (some a)) :
    a = n := by
  unfold post_inline_comment runPositional at hres
  by_cases h1 : (loopGo env.attemptRes n 0 n).success = true
  · simp [h1] at hres
  · rw [Bool.not_eq_true] at h1
    by_cases h2 : (env.fallbackRes.returncode == 0) = true
    · simp [h1, h2] at hres
      omega
    · rw [Bool.not_eq_true] at h2
      simp [h1, h2] at hres

/-- C10 witness: a validation failure on attempt 1 of 5 still reports
`attempts = 5` in the fallback record. -/
theorem c10_attempts_field_is_max_retries_witness : (5 : Nat) = 5 :=
  c10_attempts_field_is_max_retries
    ⟨[], fun _ => ⟨1, "HTTP 422: Validation Failed".toList⟩, ⟨0, []⟩⟩ 1 ("f.py".toList) 2
    ("hi".toList) 7 5 1 ("f.py".toList) 2
    (strip ("HTTP 422: Validation Failed".toList)) 5 (by omega) (by decide)

/-- One element of the `inline_comments` argument: a dict with keys `path`,
`line`, `body`. -/
structure CommentReq where
  path : Str
  line : Nat
  body : Str
deriving DecidableEq

inductive PostStatus where
  | success
  | failed
deriving DecidableEq

/-- One element of the outcome's `inline_comments` list: `path`, `line`,
`status`, and either the per-comment `result` dict or the captured `error`. -/
structure CommentOutcome where
  path : Str
  line : Nat
  status : PostStatus
  error : Option Str
  result : Option PostResult
deriving DecidableEq

/-- The dict returned by `post_review_with_inline_comments`, plus the
`submitted` trace: the comments actually handed to `post_inline_comment`. -/
structure ReviewOutcome where
  summary_posted : Bool
  summary_error : Option Str
  inline_comments : List CommentOutcome
  total : Nat
  deduplicated_total : Nat
  duplicates_removed : Nat
  successful : Nat
  failed : Nat
  submitted : List CommentReq
deriving DecidableEq

/-- Environment of one review posting: the result of the summary
`gh pr comment` call, and a `PostEnv` for the `post_inline_comment` call made
for the comment at each index of the deduplicated list. -/
structure ReviewEnv where
  summaryRes : ApiResult
  postEnvs : Nat → PostEnv

/-- The `(path, line)`-deduplication loop: returns the surviving comments in
first-seen order and the number of duplicates removed. -/
def dedupGo (seen : List (Str × Nat)) : List CommentReq → List CommentReq × Nat
  | [] => ([], 0)
  | c :: rest =>
    if seen.contains (c.path, c.line) then
      ((dedupGo seen rest).1, (dedupGo seen rest).2 + 1)
    else
      (c :: (dedupGo ((c.path, c.line) :: seen) rest).1,
       (dedupGo ((c.path, c.line) :: seen) rest).2)

def dedupComments (cs : List CommentReq) : List CommentReq × Nat :=
  dedupGo [] cs

/-- The record appended for one comment: a `success` record holding the
returned dict, or a `failed` record holding the captured exception text. -/
def mkRecord (c : CommentReq) (po : PostOutcome) : CommentOutcome :=
  match po.result with
  | .raised m => ⟨c.path, c.line, .failed, some m, none⟩
  | r => ⟨c.path, c.line, .success, none, some r⟩

def isFailRec (po : PostOutcome) : Bool :=
  match po.result with
  | .raised _ => true
  | _ => false

/-- The posting loop over the deduplicated comments: one outcome record per
comment (an exception is captured in the record, never propagated), plus the
running `successful` and `failed` counters. -/
def processComments (envs : Nat → PostEnv) (pr : Nat) :
    Nat → List CommentReq → List CommentOutcome × (Nat × Nat)
  | _, [] => ([], (0, 0))
  | i, c :: rest =>
    (mkRecord c (post_inline_comment (envs i) pr c.path c.line c.body none 5)
        :: (processComments envs pr (i + 1) rest).1,
     ((processComments envs pr (i + 1) rest).2.1 +
        (if isFailRec (post_inline_comment (envs i) pr c.path c.line c.body none 5) then 0 else 1),
      (processComments envs pr (i + 1) rest).2.2 +
        (if isFailRec (post_inline_comment (envs i) pr c.path c.line c.body none 5) then 1 else 0)))

/-- `GitHubClient.post_review_with_inline_comments`. -/
def post_review_with_inline_comments (env : ReviewEnv) (pr : Nat) (summary : Str)
    (cs : List CommentReq) : ReviewOutcome :=
  ⟨env.summaryRes.returncode == 0,
   if env.summaryRes.returncode == 0 then none else some (ghFailMsg env.summaryRes),
   (processComments env.postEnvs pr 0 (dedupComments cs).1).1,
   cs.length,
   (dedupComments cs).1.length,
   (dedupComments cs).2,
   (processComments env.postEnvs pr 0 (dedupComments cs).1).2.1,
   (processComments env.postEnvs pr 0 (dedupComments cs).1).2.2,
   (dedupComments cs).1⟩

theorem processComments_length (envs : Nat → PostEnv) (pr : Nat) :
    ∀ (cs : List CommentReq) (i : Nat), (processComments envs pr i cs).1.length = cs.length := by
  intro cs
  induction cs with
  | nil => intro i; simp [processComments]
  | cons c rest ih => intro i; simp [processComments, ih]

theorem processComments_get (envs : Nat → PostEnv) (pr : Nat) :
    ∀ (cs : List CommentReq) (i j : Nat),
    (processComments envs pr i cs).1.get? j
      = (cs.get? j).map (fun c =>
          mkRecord c (post_inline_comment (envs (i + j)) pr c.path c.line c.body none 5)) := by
  intro cs
  induction cs with
  | nil => intro i j; simp [processComments]
  | cons c rest ih =>
    intro i j
    cases j with
    | zero => simp [processComments]
    | succ j =>
      have h := ih (i + 1) j
      simp only [processComments, List.get?_cons_succ, h, Nat.add_assoc, Nat.add_comm 1 j]

/-- C7: dedup by `(path, line)` keeps the first-seen comment: the request list
`[(f,10,"a"), (f,10,"b"), (g,5,"c")]` reports `total = 3`,
`deduplicated_total = 2`, `duplicates_removed = 1`, and only `(f,10,"a")` and
`(g,5,"c")` are submitted. -/
theorem c7_dedup_first_wins (env : ReviewEnv) (pr : Nat) (summary : Str) (f g : Str) :
    (post_review_with_inline_comments env pr summary
        [⟨f, 10, "a".toList⟩, ⟨f, 10, "b".toList⟩, ⟨g, 5, "c".toList⟩]).total = 3 ∧
    (post_review_with_inline_comments env pr summary
        [⟨f, 10, "a".toList⟩, ⟨f, 10, "b".toList⟩, ⟨g, 5, "c".toList⟩]).deduplicated_total = 2 ∧
    (post_review_with_inline_comments env pr summary
        [⟨f, 10, "a".toList⟩, ⟨f, 10, "b".toList⟩, ⟨g, 5, "c".toList⟩]).duplicates_removed = 1 ∧
    (post_review_with_inline_comments env pr summary
        [⟨f, 10, "a".toList⟩, ⟨f, 10, "b".toList⟩, ⟨g, 5, "c".toList⟩]).submitted
      = [⟨f, 10, "a".toList⟩, ⟨g, 5, "c".toList⟩] := by
  have hd : dedupComments [⟨f, 10, "a".toList⟩, ⟨f, 10, "b".toList⟩, ⟨g, 5, "c".toList⟩]
      = ([⟨f, 10, "a".toList⟩, ⟨g, 5, "c".toList⟩], 1) := by
    simp +decide [dedupComments, dedupGo, List.contains]
  simp at hd
  simp [post_review_with_inline_comments, hd]

/-- C8: every surviving comment produces exactly one outcome record
(`len(inline_comments) = deduplicated_total`), and an exception raised while
posting comment `j` is captured in record `j` as a `failed` status with the
error text, never aborting the remaining comments. -/
theorem c8_one_record_per_comment (env : ReviewEnv) (pr : Nat) (summary : Str)
    (cs : List CommentReq) :
    (post_review_with_inline_comments env pr summary cs).inline_comments.length
      = (post_review_with_inline_comments env pr summary cs).deduplicated_total ∧
    (∀ j c msg, (dedupComments cs).1.get? j = some c →
      (post_inline_comment (env.postEnvs j) pr c.path c.line c.body none 5).result
        = .raised msg →
      (post_review_with_inline_comments env pr summary cs).inline_comments.get? j
        = some ⟨c.path, c.line, .failed, some msg, none⟩) := by
  constructor
  · simp [post_review_with_inline_comments, processComments_length]
  · intro j c msg hget hraised
    have h := processComments_get env.postEnvs pr (dedupComments cs).1 0 j
    rw [hget] at h
    simp [mkRecord, hraised] at h
    simpa [post_review_with_inline_comments] using h

/-- C8 witness: a single comment whose posting raises (fallback `gh pr comment`
exits 1) still yields one record, a `failed` one carrying the error text. -/
theorem c8_one_record_per_comment_witness :
    (post_review_with_inline_comments
        ⟨⟨0, []⟩, fun _ => ⟨[], fun _ => ⟨1, []⟩, ⟨1, "err".toList⟩⟩⟩ 1 ("s".toList)
        [⟨"f.py".toList, 2, "hi".toList⟩]).inline_comments.length
      = (post_review_with_inline_comments
          ⟨⟨0, []⟩, fun _ => ⟨[], fun _ => ⟨1, []⟩, ⟨1, "err".toList⟩⟩⟩ 1 ("s".toList)
          [⟨"f.py".toList, 2, "hi".toList⟩]).deduplicated_total ∧
    (post_review_with_inline_comments
        ⟨⟨0, []⟩, fun _ => ⟨[], fun _ => ⟨1, []⟩, ⟨1, "err".toList⟩⟩⟩ 1 ("s".toList)
        [⟨"f.py".toList, 2, "hi".toList⟩]).inline_comments.get? 0
      = some ⟨"f.py".toList, 2, .failed, some ("gh pr comment failed: err".toList), none⟩ :=
  ⟨(c8_one_record_per_comment
      ⟨⟨0, []⟩, fun _ => ⟨[], fun _ => ⟨1, []⟩, ⟨1, "err".toList⟩⟩⟩ 1 ("s".toList)
      [⟨"f.py".toList, 2, "hi".toList⟩]).1,
   (c8_one_record_per_comment
      ⟨⟨0, []⟩, fun _ => ⟨[], fun _ => ⟨1, []⟩, ⟨1, "err".toList⟩⟩⟩ 1 ("s".toList)
      [⟨"f.py".toList, 2, "hi".toList⟩]).2 0 ⟨"f.py".toList, 2, "hi".toList⟩
      ("gh pr comment failed: err".toList) (by decide) (by decide)⟩

/-- C9: a failure of the summary post is recorded (`summary_posted = false`,
`summary_error` carries the error text) and does not stop the inline comments:
one record per surviving comment is still produced.  On success
`summary_posted = true` and `summary_error` stays `none`. -/
theorem c9_summary_failure_nonfatal (env : ReviewEnv) (pr : Nat) (summary : Str)
    (cs : List CommentReq) :
    (((env.summaryRes.returncode == 0) = false) →
      (post_review_with_inline_comments env pr summary cs).summary_posted = false ∧
      (post_review_with_inline_comments env pr summary cs).summary_error
        = some (ghFailMsg env.summaryRes) ∧
      (post_review_with_inline_comments env pr summary cs).inline_comments.length
        = (post_review_with_inline_comments env pr summary cs).deduplicated_total) ∧
    (((env.summaryRes.returncode == 0) = true) →
      (post_review_with_inline_comments env pr summary cs).summary_posted = true ∧
      (post_review_with_inline_comments env pr summary cs).summary_error = none) := by
  constructor
  · intro hfail
    refine ⟨?_, ?_, ?_⟩
    · simp [post_review_with_inline_comments, hfail]
    · simp [post_review_with_inline_comments, hfail]
    · simp [post_review_with_inline_comments, processComments_length]
  · intro hok
    constructor
    · simp [post_review_with_inline_comments, hok]
    · simp [post_review_with_inline_comments, hok]

/-- C9 witness: with the summary `gh pr comment` call exiting 1 with stderr
`no auth`, the outcome records the failure and still processes the comment. -/
theorem c9_summary_failure_nonfatal_witness :
    (post_review_with_inline_comments
        ⟨⟨1, "no auth".toList⟩, fun _ => ⟨[], fun _ => ⟨1, []⟩, ⟨0, []⟩⟩⟩ 1 ("s".toList)
        [⟨"f.py".toList, 2, "hi".toList⟩]).summary_posted = false ∧
    (post_review_with_inline_comments
        ⟨⟨1, "no auth".toList⟩, fun _ => ⟨[], fun _ => ⟨1, []⟩, ⟨0, []⟩⟩⟩ 1 ("s".toList)
        [⟨"f.py".toList, 2, "hi".toList⟩]).summary_error
      = some (ghFailMsg ⟨1, "no auth".toList⟩) ∧
    (post_review_with_inline_comments
        ⟨⟨1, "no auth".toList⟩, fun _ => ⟨[], fun _ => ⟨1, []⟩, ⟨0, []⟩⟩⟩ 1 ("s".toList)
        [⟨"f.py".toList, 2, "hi".toList⟩]).inline_comments.length
      = (post_review_with_inline_comments
          ⟨⟨1, "no auth".toList⟩, fun _ => ⟨[], fun _ => ⟨1, []⟩, ⟨0, []⟩⟩⟩ 1 ("s".toList)
          [⟨"f.py".toList, 2, "hi".toList⟩]).deduplicated_total :=
  (c9_summary_failure_nonfatal
      ⟨⟨1, "no auth".toList⟩, fun _ => ⟨[], fun _ => ⟨1, []⟩, ⟨0, []⟩⟩⟩ 1 ("s".toList)
      [⟨"f.py".toList, 2, "hi".toList⟩]).1 (by decide)

end Reviewer
